import Mathlib

/-!
Shallow embedding of the fan-out query-and-aggregation engine of
`src/monitor.py` (class `MonitorApp`): the counter parser `_parse_count`,
the per-host session-cookie store and `_get_session_cookie_for_host`,
the cross-host aggregation worker `_consultar_todos_worker` with its
completion handler `_consultar_todos_done`, and the single-host
"All regions" aggregation path of `refresh`.

Python strings are modelled over their character lists with ASCII
semantics (Unicode digit/space classes and IEEE-754 rounding of the
`float()` branch are outside the model; the float branch is modelled
with exact decimal arithmetic).  Network and authenticator effects are
an explicit environment of response-valued functions; dictionaries are
association lists.
-/

namespace Monitor

/-! ### Python-level character and string helpers -/

/-- ASCII whitespace as matched by `str.strip` and the regex class `\s`. -/
def isPySpace (c : Char) : Bool :=
  c = ' ' || c = '\t' || c = '\n' || c = '\r' || c = '\x0b' || c = '\x0c'

/-- `str.strip()`: drop leading and trailing whitespace. -/
def pyStrip (cs : List Char) : List Char :=
  ((cs.dropWhile isPySpace).reverse.dropWhile isPySpace).reverse

/-- `re.sub(r'[\,\s]', '', s)`: remove commas and whitespace. -/
def stripSeps (cs : List Char) : List Char :=
  cs.filter (fun c => !(c = ',' || isPySpace c))

/-- Numeric value of the digit characters of a list, skipping non-digits. -/
def natValUD (cs : List Char) : Nat :=
  cs.foldl (fun acc c => if c.isDigit then acc * 10 + (c.toNat - 48) else acc) 0

/-- Tail of a Python integer-literal digit group: digits with single
underscores allowed between digits. -/
def udTail : List Char → Bool
  | [] => true
  | ['_'] => false
  | '_' :: d :: rest => d.isDigit && udTail rest
  | c :: rest => c.isDigit && udTail rest

/-- A valid Python digit group (as accepted by `int`/`float` after the
sign): nonempty, starts and ends with a digit, single underscores
only between digits. -/
def udValid (cs : List Char) : Bool :=
  match cs with
  | [] => false
  | c :: rest => c.isDigit && udTail rest

/-- Read an optional leading sign; returns (isNegative, rest). -/
def readSign (cs : List Char) : Bool × List Char :=
  match cs with
  | [] => (false, [])
  | c :: r => if c = '-' then (true, r) else if c = '+' then (false, r) else (false, cs)

/-- Split a list at the first character satisfying `p`; the second
component is `none` when no such character occurs. -/
def splitOnFirst (p : Char → Bool) : List Char → List Char × Option (List Char)
  | [] => ([], none)
  | c :: r =>
    if p c then ([], some r)
    else
      let (a, b) := splitOnFirst p r
      (c :: a, b)

/-- Python `int(s)` on a separator-free string: optional sign followed by
an underscore-grouped digit run; `none` models `ValueError`. -/
def pyInt (cs : List Char) : Option Int :=
  match cs with
  | [] => none
  | c :: r =>
    if c = '+' then (if udValid r then some ((natValUD r : Int)) else none)
    else if c = '-' then (if udValid r then some (-(natValUD r : Int)) else none)
    else (if udValid cs then some ((natValUD cs : Int)) else none)

/-- Python `int(float(s))` on a separator-free string: a finite decimal
literal (optional sign, integer/fraction digit groups, optional
exponent) truncated toward zero; `none` models `ValueError` (including
`inf`/`nan`, whose truncation raises).  Exact decimal arithmetic stands
in for IEEE-754 evaluation. -/
def pyFloatTrunc (cs : List Char) : Option Int :=
  let sn := readSign cs
  let me := splitOnFirst (fun c => c = 'e' || c = 'E') sn.2
  let ifp := splitOnFirst (fun c => c = '.') me.1
  let mantOk :=
    match ifp.2 with
    | none => udValid ifp.1
    | some fp =>
      (udValid ifp.1 && (fp.isEmpty || udValid fp)) || (ifp.1.isEmpty && udValid fp)
  let expOk :=
    match me.2 with
    | none => true
    | some ecs => udValid (readSign ecs).2
  if mantOk && expOk then
    let e : Int :=
      match me.2 with
      | none => 0
      | some ecs =>
        if (readSign ecs).1 then -(natValUD (readSign ecs).2 : Int)
        else (natValUD (readSign ecs).2 : Int)
    let fdigits : List Char :=
      match ifp.2 with
      | none => []
      | some fp => fp.filter Char.isDigit
    let k := fdigits.length
    let n : Nat := natValUD ifp.1 * 10 ^ k + natValUD fdigits
    let m : Int := e - (k : Int)
    let mag : Nat := if 0 ≤ m then n * 10 ^ m.toNat else n / 10 ^ (-m).toNat
    some (if sn.1 then -(mag : Int) else (mag : Int))
  else none

/-! ### `_parse_count` (monitor.py lines 729-751) -/

/-- `_parse_count` on the stripped character list of `str(cnt_raw)`:
strip separators, try `int`, then `int(float(...))`, then the
concatenation of all digit characters, defaulting to 0. -/
def parseCountChars (cs : List Char) : Int :=
  if (pyStrip cs).isEmpty then 0
  else
    match pyInt (stripSeps (pyStrip cs)) with
    | some n => n
    | none =>
      match pyFloatTrunc (stripSeps (pyStrip cs)) with
      | some n => n
      | none =>
        if ((pyStrip cs).filter Char.isDigit).isEmpty then 0
        else (natValUD ((pyStrip cs).filter Char.isDigit) : Int)

/-- `_parse_count` applied to a string. -/
def parseCountStr (s : String) : Int := parseCountChars s.data

/-- The raw values `_parse_count` receives: `None`, a string, or a
(integer) number. -/
inductive PyRaw where
  | pnull
  | pstr (s : String)
  | pint (n : Int)
deriving DecidableEq, Repr

/-- `_parse_count(cnt_raw)`: `None` yields 0; otherwise parse
`str(cnt_raw)`. -/
def parseCount : PyRaw → Int
  | .pnull => 0
  | .pstr s => parseCountStr s
  | .pint n => parseCountStr (toString n)

/-- The character list of `str(cnt_raw)` (empty for `None`, which
`_parse_count` never stringifies). -/
def rawChars : PyRaw → List Char
  | .pnull => []
  | .pstr s => s.data
  | .pint n => (toString n).data

/-- Modelled from the spec: the value of the *maximal (longest) run of
consecutive decimal digits* of the input, 0 when there are no digits.
This follows the spec's words for claim C5 and is compared against the
source's all-digits fallback. -/
def digitRunsAux : List Char → List Char → List (List Char)
  | [], cur => if cur.isEmpty then [] else [cur.reverse]
  | c :: rest, cur =>
    if c.isDigit then digitRunsAux rest (c :: cur)
    else if cur.isEmpty then digitRunsAux rest []
    else cur.reverse :: digitRunsAux rest []

/-- The maximal runs of consecutive digits of a string, in order. -/
def digitRuns (cs : List Char) : List (List Char) := digitRunsAux cs []

/-- The longest element of a list of runs (earliest on ties). -/
def longestRun (rs : List (List Char)) : List Char :=
  rs.foldl (fun best r => if best.length < r.length then r else best) []

/-- Modelled from the spec: parse the maximal run of consecutive decimal
digits, defaulting to 0. -/
def specMaxDigitRunVal (cs : List Char) : Int :=
  (natValUD (longestRun (digitRuns cs)) : Int)

/-! ### Association lists for Python dicts -/

/-- `self.session_cookies`: one cookie string per host. -/
abbrev Store := List (String × String)

/-- `dict.get(h)` on the cookie store. -/
def storeGet : Store → String → Option String
  | [], _ => none
  | (k, v) :: rest, h => if k = h then some v else storeGet rest h

/-- `dict[h] = c` on the cookie store (replace or append). -/
def storePut : Store → String → String → Store
  | [], h, c => [(h, c)]
  | (k, v) :: rest, h, c =>
    if k = h then (h, c) :: rest else (k, v) :: storePut rest h c

/-- `m[k] = m.get(k, 0) + v` on an integer-valued dict. -/
def bump : List (String × Int) → String → Int → List (String × Int)
  | [], k, v => [(k, v)]
  | (k1, v1) :: rest, k, v =>
    if k1 = k then (k1, v1 + v) :: rest else (k1, v1) :: bump rest k v

/-- `m[k] = v` on an integer-valued dict. -/
def setAssoc : List (String × Int) → String → Int → List (String × Int)
  | [], k, v => [(k, v)]
  | (k1, v1) :: rest, k, v =>
    if k1 = k then (k1, v) :: rest else (k1, v1) :: setAssoc rest k v

/-- `sum(m.values())`. -/
def sumVals (m : List (String × Int)) : Int :=
  (m.map Prod.snd).sum

/-- Python truthiness of an optional cookie string. -/
def truthy : Option String → Bool
  | none => false
  | some c => c ≠ ""

/-- `{"ESAdmin-Cookie": cv} if cv else None`: the cookie actually sent. -/
def effCookie (o : Option String) : Option String :=
  if truthy o then o else none

/-! ### HTTP and authenticator environment -/

/-- A `PCTCnt` JSON value: null, string, or (integer) number. -/
inductive CntVal where
  | vnull
  | vstr (s : String)
  | vint (n : Int)
deriving DecidableEq, Repr

/-- `pct.get('PCTCnt') or 0`: Python-falsy values collapse to 0. -/
def cntRawOrZero : Option CntVal → PyRaw
  | none => .pint 0
  | some .vnull => .pint 0
  | some (.vstr s) => if s = "" then .pint 0 else .pstr s
  | some (.vint n) => if n = 0 then .pint 0 else .pint n

/-- The count contributed by one list element. -/
def cntOf (c : Option CntVal) : Int := parseCount (cntRawOrZero c)

/-- One element of a counters list: either not a JSON object (its
`.get` raises and the element is skipped by the `except` clause) or an
object with optional `PCTName` and `PCTCnt` fields. -/
inductive PctItem where
  | notDict
  | dict (name : Option String) (cnt : Option CntVal)
deriving DecidableEq, Repr

/-- The value of a `PCTs` field: a JSON array, or a truthy non-iterable
value such as a number — iterating the latter at `for pct in pcts`
raises `TypeError`.  (Truthy iterable non-lists such as strings behave
like lists whose every element raises inside the per-record `try` and
is skipped; they are subsumed by `plist` of `notDict` elements.) -/
inductive PctsVal where
  | plist (items : List PctItem)
  | nonIterable (n : Int)
deriving DecidableEq, Repr

/-- A decoded 2xx body: undecodable JSON, a JSON object with an optional
`PCTs` value (absent or null collapse to `none`), a bare JSON array, or
any other JSON value. -/
inductive RespBody where
  | badJson
  | obj (pcts : Option PctsVal)
  | arr (items : List PctItem)
  | scalar
deriving DecidableEq, Repr

/-- `requests.get` outcome: a raised exception or a response with a
status code and body. -/
inductive FetchResult where
  | exn
  | resp (status : Nat) (body : RespBody)
deriving DecidableEq, Repr

/-- How the record loop is entered for one body. -/
inductive PctsCase where
  | noPcts
  | records (items : List PctItem)
  | crash
deriving DecidableEq, Repr

/-- `pcts = data.get('PCTs') if isinstance(data, dict) else (data if
isinstance(data, list) else None)` followed by the falsy test
`if not pcts` (an empty list and 0 are falsy) and the loop head
`for pct in pcts:` — a truthy non-iterable `PCTs` value reaches the
loop head and raises `TypeError`, which no enclosing handler catches
(`crash`).  (`badJson` never reaches this point; `noPcts` keeps the
function total.) -/
def classifyBody : RespBody → PctsCase
  | .badJson => .noPcts
  | .obj none => .noPcts
  | .obj (some (.plist l)) => if l.isEmpty then .noPcts else .records l
  | .obj (some (.nonIterable n)) => if n = 0 then .noPcts else .crash
  | .arr l => if l.isEmpty then .noPcts else .records l
  | .scalar => .noPcts

/-- External effects: `requests.get` (host, port, region, sent cookie)
and `microfocus_logon` (host, port; `none` models a raised exception,
`some c` the returned cookie value). -/
structure Env where
  fetch : String → Nat → String → Option String → FetchResult
  auth : String → Nat → Option String

/-- UI credential fields: whether `user_var` and `pass_var` are
non-empty after `strip()`. -/
structure Creds where
  u : Bool
  p : Bool
deriving DecidableEq, Repr

/-- `user and pw` both present. -/
def Creds.both (c : Creds) : Bool := c.u && c.p

/-- `user or pw` present. -/
def Creds.either (c : Creds) : Bool := c.u || c.p

/-! ### `_get_session_cookie_for_host` (monitor.py lines 1196-1229) -/

/-- `_get_session_cookie_for_host`: with both credentials present,
attempt one logon; on success store the cookie under the host when it
is non-empty and return it.  Returns the new store, the returned
cookie, and whether a logon call was made.  The `interactive` flag only
selects message boxes and mirror fields, which are outside the model. -/
def getSessionCookieForHost (env : Env) (creds : Bool) (store : Store)
    (host : String) (port : Nat) : Store × Option String × Bool :=
  if creds then
    match env.auth host port with
    | none => (store, none, true)
    | some cookie =>
      ((if cookie ≠ "" then storePut store host cookie else store), some cookie, true)
  else (store, none, false)

/-- `logoff` clears `self.session_cookie` and `self.logon_headers` but
never touches the per-host store `self.session_cookies`. -/
def logoffSessionCookies (store : Store) : Store := store

/-! ### `_consultar_todos_worker` (monitor.py lines 1231-1320) -/

/-- One entry of `self.host_mapping`. -/
structure MapEntry where
  port : Nat
  regions : Option (List String)
  region : Option String
deriving DecidableEq, Repr

/-- `m.get('regions') or ([m.get('region')] if m.get('region') else [])`. -/
def effRegions (m : MapEntry) : List String :=
  let fallback : List String :=
    match m.region with
    | some r => if r = "" then [] else [r]
    | none => []
  match m.regions with
  | some l => if l.isEmpty then fallback else l
  | none => fallback

/-- The worker's accumulators, i.e. the keys of the returned dict. -/
structure WAcc where
  total_sum : Int
  total_calls : Nat
  agg_pcts : List (String × Int)
  agg_by_region : List (String × Int)
  agg_by_host : List (String × Int)
deriving DecidableEq, Repr

/-- The worker's per-record loop: elements that are not objects raise in
`.get` and are skipped; `PCTName or ''` empty drops the element
(`if not name: continue`); otherwise the count is added to `agg_pcts`,
`total_sum` and `region_sum`. -/
def workerPctLoop : List PctItem → List (String × Int) → Int → Int →
    List (String × Int) × Int × Int
  | [], agg, tsum, rsum => (agg, tsum, rsum)
  | .notDict :: rest, agg, tsum, rsum => workerPctLoop rest agg tsum rsum
  | .dict name0 cnt0 :: rest, agg, tsum, rsum =>
    let name := name0.getD ""
    let cnt := cntOf cnt0
    if name = "" then workerPctLoop rest agg tsum rsum
    else workerPctLoop rest (bump agg name cnt) (tsum + cnt) (rsum + cnt)

/-- How one region's processing ended; `crash` is the uncaught
`TypeError` raised at `for pct in pcts` on a truthy non-iterable
`PCTs` value, which aborts the whole sweep. -/
inductive RegionTag where
  | transportFirst
  | transportRetry
  | unauthorizedSkip
  | httpError
  | badJson
  | noPcts
  | crash
  | ok
deriving DecidableEq, Repr

/-- Worker continuation after the 401 handling: status-range check,
JSON decode, `PCTs` extraction, record fold and per-region/per-host
aggregation; a truthy non-iterable `PCTs` value raises at the loop
head, before any accumulator of this region is touched. -/
def workerFinishResp (host region : String) (status : Nat) (body : RespBody)
    (acc : WAcc) : WAcc × RegionTag :=
  if status < 200 || 300 ≤ status then (acc, .httpError)
  else
    match body with
    | .badJson => (acc, .badJson)
    | b =>
      match classifyBody b with
      | .noPcts => (acc, .noPcts)
      | .crash => (acc, .crash)
      | .records pcts =>
        let r := workerPctLoop pcts acc.agg_pcts acc.total_sum 0
        (⟨r.2.1, acc.total_calls,
          r.1,
          bump acc.agg_by_region region r.2.2,
          bump acc.agg_by_host host r.2.2⟩, .ok)

/-- Result of one worker region iteration: the loop-carried cookie and
store, the accumulators, and instrumentation (logon calls made, fetches
issued, how the region ended). -/
structure WStep where
  cookie : Option String
  store : Store
  acc : WAcc
  auths : Nat
  fetches : Nat
  tag : RegionTag
deriving DecidableEq, Repr

/-- One iteration of the worker's `for region in regions` loop
(monitor.py lines 1260-1317): fetch; on a raised request skip before
counting the call; on 401 with credentials perform one non-interactive
`_get_session_cookie_for_host` and, if it yielded a truthy cookie,
one retried fetch; a still-401 response is skipped; otherwise the
response is aggregated. -/
def workerRegionStep (env : Env) (creds : Bool) (host : String) (port : Nat)
    (cv : Option String) (store : Store) (acc : WAcc) (region : String) : WStep :=
  match env.fetch host port region (effCookie cv) with
  | .exn => ⟨cv, store, acc, 0, 1, .transportFirst⟩
  | .resp status body =>
    let acc1 : WAcc := ⟨acc.total_sum, acc.total_calls + 1, acc.agg_pcts,
      acc.agg_by_region, acc.agg_by_host⟩
    if status = 401 then
      if creds then
        let g := getSessionCookieForHost env creds store host port
        if truthy g.2.1 then
          match env.fetch host port region g.2.1 with
          | .exn => ⟨g.2.1, g.1, acc1, 1, 2, .transportRetry⟩
          | .resp st2 b2 =>
            if st2 = 401 then ⟨g.2.1, g.1, acc1, 1, 2, .unauthorizedSkip⟩
            else
              let f := workerFinishResp host region st2 b2 acc1
              ⟨g.2.1, g.1, f.1, 1, 2, f.2⟩
        else ⟨cv, g.1, acc1, 1, 1, .unauthorizedSkip⟩
      else ⟨cv, store, acc1, 0, 1, .unauthorizedSkip⟩
    else
      let f := workerFinishResp host region status body acc1
      ⟨cv, store, f.1, 0, 1, f.2⟩

/-- Instrumentation record for one processed (host, region) pair. -/
structure RegionLog where
  host : String
  region : String
  tag : RegionTag
  auths : Nat
  fetches : Nat
deriving DecidableEq, Repr

/-- The worker's region loop for one host, threading cookie, store and
accumulators and logging every region processed; an uncaught
`TypeError` (`crash`) abandons the remaining regions — the final
component records whether that happened. -/
def workerRegionsLoop (env : Env) (creds : Bool) (host : String) (port : Nat) :
    List String → Option String → Store → WAcc →
    Option String × Store × WAcc × List RegionLog × Bool
  | [], cv, store, acc => (cv, store, acc, [], false)
  | r :: rest, cv, store, acc =>
    let s := workerRegionStep env creds host port cv store acc r
    if s.tag = .crash then
      (s.cookie, s.store, s.acc, [⟨host, r, s.tag, s.auths, s.fetches⟩], true)
    else
      let t := workerRegionsLoop env creds host port rest s.cookie s.store s.acc
      (t.1, t.2.1, t.2.2.1, ⟨host, r, s.tag, s.auths, s.fetches⟩ :: t.2.2.2.1,
       t.2.2.2.2)

/-- One iteration of the worker's `for host_key, m in host_mapping`
loop: skip hosts with no regions, resolve a cookie (stored value, else
one non-interactive logon when credentials are present), then process
the regions. -/
def workerHostStep (env : Env) (creds : Bool) (store : Store) (acc : WAcc)
    (hk : String) (m : MapEntry) : Store × WAcc × List RegionLog × Bool :=
  let regions := effRegions m
  if regions.isEmpty then (store, acc, [], false)
  else
    let c0 := storeGet store hk
    let sc :=
      if truthy c0 then (store, c0)
      else if creds then
        let g := getSessionCookieForHost env creds store hk m.port
        (g.1, g.2.1)
      else (store, c0)
    let t := workerRegionsLoop env creds hk m.port regions sc.2 sc.1 acc
    (t.2.1, t.2.2.1, t.2.2.2.1, t.2.2.2.2)

/-- The worker's host loop; a crash abandons the remaining hosts. -/
def workerHostsLoop (env : Env) (creds : Bool) :
    List (String × MapEntry) → Store → WAcc →
    Store × WAcc × List RegionLog × Bool
  | [], store, acc => (store, acc, [], false)
  | (hk, m) :: rest, store, acc =>
    let s := workerHostStep env creds store acc hk m
    if s.2.2.2 then (s.1, s.2.1, s.2.2.1, true)
    else
      let t := workerHostsLoop env creds rest s.1 s.2.1
      (t.1, t.2.1, s.2.2.1 ++ t.2.2.1, t.2.2.2)

/-- `_consultar_todos_worker`: fold every configured (host, region)
pair starting from all-zero accumulators; the returned dict carries
exactly the five accumulator fields (in particular, no failed-regions
list).  The final component records whether the sweep was aborted by an
uncaught `TypeError`; store mutations made before the crash persist. -/
def consultarTodosWorker (env : Env) (creds : Bool)
    (mapping : List (String × MapEntry)) (store : Store) :
    Store × WAcc × List RegionLog × Bool :=
  workerHostsLoop env creds mapping store ⟨0, 0, [], [], []⟩

/-- What the thread wrapper `_start` delivers to the completion
handler: the worker's dict, or — when the worker raised — the
`{'error': str(e)}` dict. -/
def consultarTodosOutcome (env : Env) (creds : Bool)
    (mapping : List (String × MapEntry)) (store : Store) :
    Except String WAcc :=
  let t := consultarTodosWorker env creds mapping store
  if t.2.2.2 then .error "TypeError" else .ok t.2.1

/-! ### `refresh` with region == 'All' (monitor.py lines 1921-2066) -/

/-- The accumulators of refresh's All-regions path. -/
structure RAcc where
  agg_pcts : List (String × Int)
  total_sum : Int
  total_calls : Nat
  region_counts : List (String × Int)
  failed : List String
deriving DecidableEq, Repr

/-- Refresh's per-record loop: unlike the worker it has no
`if not name` test, so empty or absent names are aggregated under the
empty-string key. -/
def refreshPctLoop : List PctItem → List (String × Int) → Int → Int →
    List (String × Int) × Int × Int
  | [], agg, tsum, rsum => (agg, tsum, rsum)
  | .notDict :: rest, agg, tsum, rsum => refreshPctLoop rest agg tsum rsum
  | .dict name0 cnt0 :: rest, agg, tsum, rsum =>
    let name := name0.getD ""
    let cnt := cntOf cnt0
    refreshPctLoop rest (bump agg name cnt) (tsum + cnt) (rsum + cnt)

/-- Refresh continuation once a response survives the 401 handling:
a non-2xx status appends the region to `failed_regions`; an
undecodable body is skipped silently; a missing or empty counters list
sets `region_counts[r] = 0`; otherwise the records are folded. -/
def refreshFinishResp (r : String) (status : Nat) (body : RespBody)
    (acc : RAcc) : RAcc × RegionTag :=
  if status < 200 || 300 ≤ status then
    (⟨acc.agg_pcts, acc.total_sum, acc.total_calls, acc.region_counts,
      acc.failed ++ [r]⟩, .httpError)
  else
    match body with
    | .badJson => (acc, .badJson)
    | b =>
      match classifyBody b with
      | .noPcts =>
        (⟨acc.agg_pcts, acc.total_sum, acc.total_calls,
          setAssoc acc.region_counts r 0, acc.failed⟩, .noPcts)
      | .crash => (acc, .crash)
      | .records pcts =>
        let f := refreshPctLoop pcts acc.agg_pcts acc.total_sum 0
        (⟨f.1, f.2.1, acc.total_calls,
          setAssoc acc.region_counts r f.2.2, acc.failed⟩, .ok)

/-- Result of one refresh region iteration. -/
structure RStep where
  cookie : Option String
  store : Store
  acc : RAcc
  auths : Nat
  fetches : Nat
  tag : RegionTag
deriving DecidableEq, Repr

/-- The `if resp.status_code == 401` inner handling of refresh after the
optional non-interactive retry: a still-401 response triggers (when
`retry` is false) a full interactive `login` and, if the store then
holds a truthy cookie, a second retried fetch; otherwise the region is
skipped without being recorded. -/
def refreshAfter401 (env : Env) (c : Creds) (host : String) (port : Nat)
    (retry : Bool) (cv : Option String) (store : Store) (acc : RAcc)
    (r : String) (st : Nat) (body : RespBody) (auths fetches : Nat) : RStep :=
  if st = 401 then
    if retry = false then
      let g := getSessionCookieForHost env c.both store host port
      let a2 := if g.2.2 then 1 else 0
      let cv2 := storeGet g.1 host
      if truthy cv2 then
        match env.fetch host port r cv2 with
        | .exn => ⟨cv2, g.1, acc, auths + a2, fetches + 1, .transportRetry⟩
        | .resp st3 b3 =>
          let f := refreshFinishResp r st3 b3 acc
          ⟨cv2, g.1, f.1, auths + a2, fetches + 1, f.2⟩
      else ⟨cv2, g.1, acc, auths + a2, fetches, .unauthorizedSkip⟩
    else ⟨cv, store, acc, auths, fetches, .unauthorizedSkip⟩
  else
    let f := refreshFinishResp r st body acc
    ⟨cv, store, f.1, auths, fetches, f.2⟩

/-- One iteration of refresh's `for r in regions` loop: fetch with
`cookie_val or session_cookies.get(host)`; a raised first request
appends to `failed_regions`; on 401 with both credentials one
non-interactive logon and, if it yielded a truthy cookie, one retried
fetch (whose raised exception skips silently), then the inner 401
handling. -/
def refreshRegionStep (env : Env) (c : Creds) (host : String) (port : Nat)
    (retry : Bool) (cv : Option String) (store : Store) (acc : RAcc)
    (r : String) : RStep :=
  let ctu := if truthy cv then cv else storeGet store host
  match env.fetch host port r (effCookie ctu) with
  | .exn =>
    ⟨cv, store, ⟨acc.agg_pcts, acc.total_sum, acc.total_calls,
      acc.region_counts, acc.failed ++ [r]⟩, 0, 1, .transportFirst⟩
  | .resp st body =>
    let acc1 : RAcc := ⟨acc.agg_pcts, acc.total_sum, acc.total_calls + 1,
      acc.region_counts, acc.failed⟩
    if st = 401 then
      let g := getSessionCookieForHost env c.both store host port
      let a1 := if g.2.2 then 1 else 0
      if truthy g.2.1 then
        match env.fetch host port r g.2.1 with
        | .exn => ⟨cv, g.1, acc1, a1, 2, .transportRetry⟩
        | .resp st2 b2 =>
          refreshAfter401 env c host port retry cv g.1 acc1 r st2 b2 a1 2
      else refreshAfter401 env c host port retry cv g.1 acc1 r st body a1 1
    else
      let f := refreshFinishResp r st body acc1
      ⟨cv, store, f.1, 0, 1, f.2⟩

/-- Refresh's region loop for the All path; an uncaught `TypeError`
(`crash`) propagates out of `refresh`, abandoning the remaining
regions — the final component records whether that happened. -/
def refreshRegionsLoop (env : Env) (c : Creds) (host : String) (port : Nat)
    (retry : Bool) : List String → Option String → Store → RAcc →
    Option String × Store × RAcc × List RegionLog × Bool
  | [], cv, store, acc => (cv, store, acc, [], false)
  | r :: rest, cv, store, acc =>
    let s := refreshRegionStep env c host port retry cv store acc r
    if s.tag = .crash then
      (s.cookie, s.store, s.acc, [⟨host, r, s.tag, s.auths, s.fetches⟩], true)
    else
      let t := refreshRegionsLoop env c host port retry rest s.cookie s.store s.acc
      (t.1, t.2.1, t.2.2.1, ⟨host, r, s.tag, s.auths, s.fetches⟩ :: t.2.2.2.1,
       t.2.2.2.2)

/-- First half of the cookie resolution refresh performs before its
region loop: the stored cookie, else one non-interactive logon when
both credentials are present. -/
def refreshAllPrep1 (env : Env) (c : Creds) (host : String) (port : Nat)
    (store : Store) : Store × Option String :=
  let c0 := storeGet store host
  if truthy c0 then (store, c0)
  else if c.both then
    let g := getSessionCookieForHost env c.both store host port
    (g.1, g.2.1)
  else (store, c0)

/-- The cookie resolution refresh performs before its region loop: the
first half above, then — if the cookie is still falsy and either
credential field is non-empty — one interactive `login` followed by a
store lookup. -/
def refreshAllPrep (env : Env) (c : Creds) (host : String) (port : Nat)
    (store : Store) : Store × Option String :=
  let s1 := refreshAllPrep1 env c host port store
  if truthy s1.2 then s1
  else if c.either then
    let g := getSessionCookieForHost env c.both s1.1 host port
    (g.1, storeGet g.1 host)
  else s1

/-- The whole All-regions aggregation pass of `refresh`. -/
def refreshAllRun (env : Env) (c : Creds) (host : String) (port : Nat)
    (regions : List String) (store : Store) (retry : Bool) :
    Option String × Store × RAcc × List RegionLog × Bool :=
  let p := refreshAllPrep env c host port store
  refreshRegionsLoop env c host port retry regions p.2 p.1 ⟨[], 0, 0, [], []⟩

/-! ### Presentation ordering and the completion handler -/

/-- Code-point comparison of character lists: Python's `<` on strings
restricted to the equal-code-point notion of character equality. -/
def charsLt : List Char → List Char → Bool
  | _, [] => false
  | [], _ :: _ => true
  | a :: as, b :: bs => a.toNat < b.toNat || (a.toNat = b.toNat && charsLt as bs)

/-- Python's `<=` on strings: not strictly greater. -/
def strLe (a b : String) : Bool := !charsLt b.data a.data

/-- The ordering of `sorted(agg_pcts.items(), key=lambda x: (-x[1], x[0]))`:
descending count, then ascending name. -/
def rowRel (a b : String × Int) : Prop :=
  b.2 < a.2 ∨ (a.2 = b.2 ∧ strLe a.1 b.1 = true)

instance rowRelDecidable : DecidableRel rowRel := fun a b => by
  unfold rowRel
  infer_instance

/-- `sorted(agg_pcts.items(), key=lambda x: (-x[1], x[0]))`. -/
def sortedPcts (m : List (String × Int)) : List (String × Int) :=
  List.insertionSort rowRel m

/-- What `_consultar_todos_done` does with the delivered result. -/
inductive DoneClass where
  | errorDialog
  | noData
  | showData (rows : List (String × Int))
deriving DecidableEq, Repr

/-- The result delivered to `_consultar_todos_done`: `none` models a
`None` result, `.error` models the `{'error': str(e)}` dict built when
the worker raises, `.ok` the worker's dict. -/
def consultarTodosDone : Option (Except String WAcc) → DoneClass
  | none => .errorDialog
  | some (.error _) => .errorDialog
  | some (.ok acc) =>
    if acc.total_sum = 0 then .noData
    else .showData (sortedPcts acc.agg_pcts)

/-! ### Predicates used by the statements -/

/-- The tags on which refresh's All path appends to `failed_regions`. -/
def recordsFailed : RegionTag → Bool
  | .transportFirst => true
  | .httpError => true
  | _ => false

/-- The elements the worker's record loop actually aggregates: JSON
objects whose `PCTName or ''` is non-empty. -/
def keepPct : PctItem → Bool
  | .notDict => false
  | .dict name0 _ => !(name0.getD "" == "")

/-- The HTTP status of a fetch outcome, `none` for a raised request. -/
def statusOf : FetchResult → Option Nat
  | .exn => none
  | .resp s _ => some s

/-- A fetch outcome that contributes no records: raised, 401, outside
[200,300), or a body with no usable counters list. -/
def NoDataFetch : FetchResult → Prop
  | .exn => True
  | .resp st b => st = 401 ∨ st < 200 ∨ 300 ≤ st ∨ classifyBody b = .noPcts

/-- A fetch outcome that cannot raise `TypeError` at the record loop:
raised, non-2xx (the loop is never reached), or a body whose `PCTs`
value is not a truthy non-iterable. -/
def NoCrashFetch : FetchResult → Prop
  | .exn => True
  | .resp st b => st < 200 ∨ 300 ≤ st ∨ classifyBody b ≠ .crash

/-- The aggregation invariant of the worker's accumulators. -/
def accInv (acc : WAcc) : Prop :=
  acc.total_sum = sumVals acc.agg_pcts ∧
  acc.total_sum = sumVals acc.agg_by_region ∧
  acc.total_sum = sumVals acc.agg_by_host

/-- The session-store invariant: every stored cookie is non-empty. -/
def storeInv (store : Store) : Prop :=
  ∀ pr ∈ store, pr.2 ≠ ""

/-! ### Concrete sample environments -/

/-- Every fetch answers HTTP 500. -/
def env500 : Env := ⟨fun _ _ _ _ => .resp 500 .scalar, fun _ _ => some "C"⟩

/-- Every fetch answers HTTP 401; authentication yields cookie "C". -/
def env401 : Env := ⟨fun _ _ _ _ => .resp 401 .scalar, fun _ _ => some "C"⟩

/-- Every fetch answers 200 with an undecodable body. -/
def envBadJson : Env := ⟨fun _ _ _ _ => .resp 200 .badJson, fun _ _ => some "C"⟩

/-- Every fetch answers 200 with one record whose name is absent. -/
def envAnon : Env :=
  ⟨fun _ _ _ _ => .resp 200 (.obj (some (.plist [.dict none (some (.vint 5))]))),
   fun _ _ => some "C"⟩

/-- Every fetch answers 200 with one record `PCT1` counting `"4,818"`. -/
def envData : Env :=
  ⟨fun _ _ _ _ =>
     .resp 200 (.obj (some (.plist [.dict (some "PCT1") (some (.vstr "4,818"))]))),
   fun _ _ => some "C"⟩

/-- Every fetch answers 200 with `{"PCTs": 5}`: a truthy non-iterable
counters value, on which the record loop raises `TypeError`. -/
def envCrash : Env :=
  ⟨fun _ _ _ _ => .resp 200 (.obj (some (.nonIterable 5))),
   fun _ _ => some "C"⟩

/-- A mapping entry with the single region `R`. -/
def entryR : MapEntry := ⟨10086, some ["R"], none⟩

/-- A mapping entry with the two regions `R1`, `R2`. -/
def entryR2 : MapEntry := ⟨10086, some ["R1", "R2"], none⟩

/-! ## Helper lemmas -/

theorem mem_of_mem_pyStrip {c : Char} {cs : List Char} (h : c ∈ pyStrip cs) :
    c ∈ cs := by
  unfold pyStrip at h
  rw [List.mem_reverse] at h
  have h2 := (List.dropWhile_sublist _).subset h
  rw [List.mem_reverse] at h2
  exact (List.dropWhile_sublist _).subset h2

theorem mem_of_mem_stripSeps {c : Char} {cs : List Char} (h : c ∈ stripSeps cs) :
    c ∈ cs :=
  List.mem_of_mem_filter h

theorem readSign_fst_eq_false {cs : List Char} (h : '-' ∉ cs) :
    (readSign cs).1 = false := by
  cases cs with
  | nil => rfl
  | cons c r =>
    have hc : ¬ c = '-' := fun e => h (e ▸ List.mem_cons_self c r)
    by_cases hp : c = '+' <;> simp [readSign, hc, hp]

theorem pyInt_nonneg {cs : List Char} {n : Int} (hm : '-' ∉ cs)
    (h : pyInt cs = some n) : 0 ≤ n := by
  cases cs with
  | nil => exact Option.noConfusion h
  | cons c r =>
    have hc : ¬ c = '-' := fun e => hm (e ▸ List.mem_cons_self c r)
    simp only [pyInt] at h
    by_cases hp : c = '+'
    · rw [if_pos hp] at h
      by_cases hv : udValid r
      · rw [if_pos hv] at h
        injection h with h
        exact h ▸ Int.natCast_nonneg _
      · rw [if_neg hv] at h
        exact Option.noConfusion h
    · rw [if_neg hp, if_neg hc] at h
      by_cases hv : udValid (c :: r)
      · rw [if_pos hv] at h
        injection h with h
        exact h ▸ Int.natCast_nonneg _
      · rw [if_neg hv] at h
        exact Option.noConfusion h

theorem pyFloatTrunc_nonneg {cs : List Char} {n : Int} (hm : '-' ∉ cs)
    (h : pyFloatTrunc cs = some n) : 0 ≤ n := by
  have hs := readSign_fst_eq_false hm
  simp only [pyFloatTrunc] at h
  rw [hs] at h
  split at h
  · simp only [Bool.false_eq_true, if_false, Option.some.injEq] at h
    exact h ▸ Int.natCast_nonneg _
  · exact Option.noConfusion h

theorem parseCountChars_nonneg {cs : List Char} (hm : '-' ∉ cs) :
    0 ≤ parseCountChars cs := by
  unfold parseCountChars
  split
  · exact le_refl 0
  · have hm2 : '-' ∉ stripSeps (pyStrip cs) :=
      fun h => hm (mem_of_mem_pyStrip (mem_of_mem_stripSeps h))
    cases h1 : pyInt (stripSeps (pyStrip cs)) with
    | some n => exact pyInt_nonneg hm2 h1
    | none =>
      cases h2 : pyFloatTrunc (stripSeps (pyStrip cs)) with
      | some n => exact pyFloatTrunc_nonneg hm2 h2
      | none =>
        dsimp only
        split
        · exact le_refl 0
        · exact Int.natCast_nonneg _

/-! ## Claims C4, C5, C6: the counter parser -/

/-- C4: the counter parser returns these exact values:
`parse("4,818") == 4818`, `parse("") == 0`, `parse(None) == 0`,
`parse("12 345") == 12345`, `parse("abc123xyz") == 123`. -/
theorem c4_parse_examples :
    parseCount (.pstr "4,818") = 4818 ∧
    parseCount (.pstr "") = 0 ∧
    parseCount .pnull = 0 ∧
    parseCount (.pstr "12 345") = 12345 ∧
    parseCount (.pstr "abc123xyz") = 123 := by
  refine ⟨by decide, by decide, rfl, by decide, by decide⟩

/-- C5 counterexample: on `"x1x23x"` both the integer and the
floating-point parse fail; the maximal run of consecutive digits is
`"23"` (value 23), but `_parse_count` concatenates all digits and
returns 123. -/
theorem c5_counterexample :
    pyInt (stripSeps (pyStrip "x1x23x".data)) = none ∧
    pyFloatTrunc (stripSeps (pyStrip "x1x23x".data)) = none ∧
    specMaxDigitRunVal "x1x23x".data = 23 ∧
    parseCountStr "x1x23x" = 123 ∧ (123 : Int) ≠ 23 := by
  refine ⟨by decide, by decide, by decide, by decide, by decide⟩

/-- C5 (amended): when both the integer parse (after separator
stripping) and the floating-point parse fail, `_parse_count` returns
the integer formed by concatenating, in order, all decimal digit
characters of the stripped input (not the maximal single run), and 0
when there are no digits. -/
theorem c5_amended (s : String)
    (h1 : pyInt (stripSeps (pyStrip s.data)) = none)
    (h2 : pyFloatTrunc (stripSeps (pyStrip s.data)) = none) :
    parseCountStr s =
      (if ((pyStrip s.data).filter Char.isDigit).isEmpty then 0
       else (natValUD ((pyStrip s.data).filter Char.isDigit) : Int)) := by
  unfold parseCountStr parseCountChars
  by_cases he : (pyStrip s.data).isEmpty
  · rw [if_pos he]
    rw [List.isEmpty_iff.mp he]
    simp
  · rw [if_neg he]
    rw [h1, h2]

/-- Witness for C5 at the concrete input `"x1x23x"`. -/
theorem c5_amended_witness :
    pyInt (stripSeps (pyStrip "x1x23x".data)) = none ∧
    pyFloatTrunc (stripSeps (pyStrip "x1x23x".data)) = none ∧
    parseCountStr "x1x23x" =
      (if ((pyStrip "x1x23x".data).filter Char.isDigit).isEmpty then 0
       else (natValUD ((pyStrip "x1x23x".data).filter Char.isDigit) : Int)) :=
  ⟨by decide, by decide, c5_amended "x1x23x" (by decide) (by decide)⟩

/-- C6 counterexample: `_parse_count` can return a negative value —
`parse("-5") == -5`, so the result is not always non-negative. -/
theorem c6_counterexample :
    parseCount (.pstr "-5") = -5 ∧ parseCount (.pstr "-5") < 0 := by
  refine ⟨by decide, by decide⟩

/-- C6 (amended): the counter parser is a total function of the raw
value (`None`, string or number) and its result is non-negative
whenever the input's text contains no minus sign; inputs such as
`"-5"` yield negative values. -/
theorem c6_amended (r : PyRaw) (h : '-' ∉ rawChars r) : 0 ≤ parseCount r := by
  cases r with
  | pnull => exact le_refl 0
  | pstr s => exact parseCountChars_nonneg h
  | pint n => exact parseCountChars_nonneg h

/-- Witness for C6 at the concrete input `"7"`. -/
theorem c6_amended_witness :
    '-' ∉ rawChars (.pstr "7") ∧ 0 ≤ parseCount (.pstr "7") :=
  ⟨by decide, c6_amended (.pstr "7") (by decide)⟩

/-! ## Ordering lemmas for the presentation sort -/

theorem charsLt_asymm (a : List Char) : ∀ b : List Char,
    charsLt a b = true → charsLt b a = false := by
  induction a with
  | nil =>
    intro b h
    cases b with
    | nil => exact absurd h (by simp [charsLt])
    | cons y bs => rfl
  | cons x as ih =>
    intro b h
    cases b with
    | nil => exact absurd h (by simp [charsLt])
    | cons y bs =>
      simp only [charsLt, Bool.or_eq_true, Bool.and_eq_true,
        decide_eq_true_eq] at h
      simp only [charsLt, Bool.or_eq_false_iff, Bool.and_eq_false_iff,
        decide_eq_false_iff_not]
      rcases h with h | ⟨he, hr⟩
      · exact ⟨by omega, Or.inl (by omega)⟩
      · exact ⟨by omega, Or.inr (ih bs hr)⟩

theorem charsLt_neg_trans (a : List Char) : ∀ b c : List Char,
    charsLt b a = false → charsLt c b = false → charsLt c a = false := by
  induction a with
  | nil =>
    intro b c h1 h2
    cases c with
    | nil => rfl
    | cons z cs => rfl
  | cons x as ih =>
    intro b c h1 h2
    cases b with
    | nil => exact absurd h1 (by simp [charsLt])
    | cons y bs =>
      cases c with
      | nil => exact absurd h2 (by simp [charsLt])
      | cons z cs =>
        simp only [charsLt, Bool.or_eq_false_iff, Bool.and_eq_false_iff,
          decide_eq_false_iff_not] at h1 h2 ⊢
        obtain ⟨h1a, h1b⟩ := h1
        obtain ⟨h2a, h2b⟩ := h2
        refine ⟨by omega, ?_⟩
        by_cases hzx : z.toNat = x.toNat
        · have hyx : y.toNat = x.toNat := by omega
          have hzy : z.toNat = y.toNat := by omega
          rcases h1b with h1b | h1b
          · exact absurd hyx h1b
          · rcases h2b with h2b | h2b
            · exact absurd hzy h2b
            · exact Or.inr (ih bs cs h1b h2b)
        · exact Or.inl hzx

theorem rowRel_total (a b : String × Int) : rowRel a b ∨ rowRel b a := by
  rcases lt_trichotomy a.2 b.2 with h | h | h
  · exact Or.inr (Or.inl h)
  · by_cases hc : charsLt b.1.data a.1.data = true
    · refine Or.inr (Or.inr ⟨h.symm, ?_⟩)
      unfold strLe
      rw [charsLt_asymm _ _ hc]
      rfl
    · refine Or.inl (Or.inr ⟨h, ?_⟩)
      unfold strLe
      rw [Bool.eq_false_iff.mpr hc]
      rfl
  · exact Or.inl (Or.inl h)

theorem rowRel_trans (a b c : String × Int) (h1 : rowRel a b) (h2 : rowRel b c) :
    rowRel a c := by
  rcases h1 with h1 | ⟨e1, s1⟩ <;> rcases h2 with h2 | ⟨e2, s2⟩
  · exact Or.inl (lt_trans h2 h1)
  · exact Or.inl (by omega)
  · exact Or.inl (by omega)
  · refine Or.inr ⟨e1.trans e2, ?_⟩
    unfold strLe at s1 s2 ⊢
    rw [Bool.not_eq_true'] at s1 s2 ⊢
    exact charsLt_neg_trans _ _ _ s1 s2

/-! ## Claim C9: presentation ordering -/

/-- C9: rows derived from `byPctName` are sorted by descending count
and, among equal counts, ascending name, and form a permutation of the
map's entries; in particular `{A:5, B:10, C:5}` is presented as
`B(10), A(5), C(5)`. -/
theorem c9_presentation_order :
    (∀ m : List (String × Int),
      (sortedPcts m).Sorted rowRel ∧ (sortedPcts m).Perm m) ∧
    sortedPcts [("A", 5), ("B", 10), ("C", 5)] =
      [("B", 10), ("A", 5), ("C", 5)] := by
  constructor
  · intro m
    haveI : IsTotal (String × Int) rowRel := ⟨rowRel_total⟩
    haveI : IsTrans (String × Int) rowRel := ⟨rowRel_trans⟩
    exact ⟨List.sorted_insertionSort rowRel m, List.perm_insertionSort rowRel m⟩
  · decide

/-! ## Aggregation-invariant lemmas -/

theorem sumVals_nil : sumVals [] = 0 := rfl

theorem sumVals_cons (p : String × Int) (l : List (String × Int)) :
    sumVals (p :: l) = p.2 + sumVals l := by
  simp [sumVals]

theorem sumVals_bump (m : List (String × Int)) (k : String) (v : Int) :
    sumVals (bump m k v) = sumVals m + v := by
  induction m with
  | nil => simp [bump, sumVals]
  | cons p rest ih =>
    obtain ⟨k1, v1⟩ := p
    by_cases hk : k1 = k
    · rw [bump, if_pos hk, sumVals_cons, sumVals_cons]
      dsimp only
      omega
    · rw [bump, if_neg hk, sumVals_cons, sumVals_cons, ih]
      omega

theorem workerPctLoop_sums (pcts : List PctItem) :
    ∀ (agg : List (String × Int)) (tsum rsum : Int),
      sumVals (workerPctLoop pcts agg tsum rsum).1 + rsum =
        sumVals agg + (workerPctLoop pcts agg tsum rsum).2.2 ∧
      (workerPctLoop pcts agg tsum rsum).2.1 + rsum =
        tsum + (workerPctLoop pcts agg tsum rsum).2.2 := by
  induction pcts with
  | nil =>
    intro agg tsum rsum
    simp [workerPctLoop]
  | cons p rest ih =>
    intro agg tsum rsum
    cases p with
    | notDict => simpa only [workerPctLoop] using ih agg tsum rsum
    | dict name0 cnt0 =>
      simp only [workerPctLoop]
      by_cases hn : name0.getD "" = ""
      · rw [if_pos hn]
        exact ih agg tsum rsum
      · rw [if_neg hn]
        obtain ⟨h1, h2⟩ :=
          ih (bump agg (name0.getD "") (cntOf cnt0)) (tsum + cntOf cnt0)
            (rsum + cntOf cnt0)
        rw [sumVals_bump] at h1
        exact ⟨by omega, by omega⟩

theorem workerFinishResp_inv (host region : String) (status : Nat)
    (body : RespBody) (acc : WAcc) (h : accInv acc) :
    accInv (workerFinishResp host region status body acc).1 := by
  unfold workerFinishResp
  split
  · exact h
  · cases body with
    | badJson => exact h
    | obj pcts0 =>
      dsimp only
      cases hc : classifyBody (.obj pcts0) with
      | noPcts => exact h
      | crash => exact h
      | records pcts =>
        dsimp only
        obtain ⟨hg1, hg2⟩ := workerPctLoop_sums pcts acc.agg_pcts acc.total_sum 0
        obtain ⟨hp, hr, hh⟩ := h
        refine ⟨?_, ?_, ?_⟩ <;> dsimp only
        · omega
        · rw [sumVals_bump]; omega
        · rw [sumVals_bump]; omega
    | arr items =>
      dsimp only
      cases hc : classifyBody (.arr items) with
      | noPcts => exact h
      | crash => exact h
      | records pcts =>
        dsimp only
        obtain ⟨hg1, hg2⟩ := workerPctLoop_sums pcts acc.agg_pcts acc.total_sum 0
        obtain ⟨hp, hr, hh⟩ := h
        refine ⟨?_, ?_, ?_⟩ <;> dsimp only
        · omega
        · rw [sumVals_bump]; omega
        · rw [sumVals_bump]; omega
    | scalar => exact h

theorem workerRegionStep_inv (env : Env) (creds : Bool) (host : String)
    (port : Nat) (cv : Option String) (store : Store) (acc : WAcc)
    (region : String) (h : accInv acc) :
    accInv (workerRegionStep env creds host port cv store acc region).acc := by
  have hacc1 : accInv ⟨acc.total_sum, acc.total_calls + 1, acc.agg_pcts,
      acc.agg_by_region, acc.agg_by_host⟩ := h
  unfold workerRegionStep
  cases env.fetch host port region (effCookie cv) with
  | exn => exact h
  | resp status body =>
    dsimp only
    split
    · split
      · split
        · cases env.fetch host port region
            (getSessionCookieForHost env creds store host port).2.1 with
          | exn => exact hacc1
          | resp st2 b2 =>
            dsimp only
            split
            · exact hacc1
            · exact workerFinishResp_inv host region st2 b2 _ hacc1
        · exact hacc1
      · exact hacc1
    · exact workerFinishResp_inv host region status body _ hacc1

theorem workerRegionsLoop_inv (env : Env) (creds : Bool) (host : String)
    (port : Nat) (regions : List String) :
    ∀ (cv : Option String) (store : Store) (acc : WAcc), accInv acc →
      accInv (workerRegionsLoop env creds host port regions cv store acc).2.2.1 := by
  induction regions with
  | nil => intro cv store acc h; exact h
  | cons r rest ih =>
    intro cv store acc h
    have hs := workerRegionStep_inv env creds host port cv store acc r h
    simp only [workerRegionsLoop]
    split
    · exact hs
    · exact ih _ _ _ hs

theorem workerHostStep_inv (env : Env) (creds : Bool) (store : Store)
    (acc : WAcc) (hk : String) (m : MapEntry) (h : accInv acc) :
    accInv (workerHostStep env creds store acc hk m).2.1 := by
  unfold workerHostStep
  dsimp only
  split
  · exact h
  · apply workerRegionsLoop_inv
    exact h

theorem workerHostsLoop_inv (env : Env) (creds : Bool)
    (mapping : List (String × MapEntry)) :
    ∀ (store : Store) (acc : WAcc), accInv acc →
      accInv (workerHostsLoop env creds mapping store acc).2.1 := by
  induction mapping with
  | nil => intro store acc h; exact h
  | cons e rest ih =>
    obtain ⟨hk, m⟩ := e
    intro store acc h
    have hs := workerHostStep_inv env creds store acc hk m h
    simp only [workerHostsLoop]
    split
    · exact hs
    · exact ih _ _ hs

/-! ## Claim C3: the aggregation-sum invariant -/

/-- C3: every step of the fold over endpoint outcomes preserves
`totalSum == Σ byPctName == Σ byRegion == Σ byHost`, and every complete
worker run satisfies it. -/
theorem c3_sum_invariant :
    (∀ (env : Env) (creds : Bool) (host : String) (port : Nat)
       (cv : Option String) (store : Store) (acc : WAcc) (region : String),
       accInv acc →
       accInv (workerRegionStep env creds host port cv store acc region).acc) ∧
    (∀ (env : Env) (creds : Bool) (mapping : List (String × MapEntry))
       (store : Store),
       accInv (consultarTodosWorker env creds mapping store).2.1) := by
  constructor
  · exact workerRegionStep_inv
  · intro env creds mapping store
    exact workerHostsLoop_inv env creds mapping store _ ⟨rfl, rfl, rfl⟩

/-- Witness for C3: the invariant holds before and after a concrete
successful region step. -/
theorem c3_sum_invariant_witness :
    accInv ⟨0, 0, [], [], []⟩ ∧
    accInv (workerRegionStep envData true "H" 10086 none [] ⟨0, 0, [], [], []⟩
      "R").acc :=
  ⟨⟨rfl, rfl, rfl⟩,
   c3_sum_invariant.1 envData true "H" 10086 none [] ⟨0, 0, [], [], []⟩ "R"
     ⟨rfl, rfl, rfl⟩⟩

/-! ## No-data runs -/

theorem workerFinishResp_noData (host region : String) (status : Nat)
    (body : RespBody) (acc : WAcc)
    (h : status = 401 ∨ status < 200 ∨ 300 ≤ status ∨
      classifyBody body = .noPcts) :
    (workerFinishResp host region status body acc).1 = acc := by
  by_cases hrange : (decide (status < 200) || decide (300 ≤ status)) = true
  · unfold workerFinishResp
    rw [if_pos hrange]
  · have hcb : classifyBody body = .noPcts := by
      rcases h with h | h | h | h
      · exfalso; simp only [Bool.or_eq_true, decide_eq_true_eq] at hrange; omega
      · exfalso; simp only [Bool.or_eq_true, decide_eq_true_eq] at hrange
        exact hrange (Or.inl h)
      · exfalso; simp only [Bool.or_eq_true, decide_eq_true_eq] at hrange
        exact hrange (Or.inr h)
      · exact h
    unfold workerFinishResp
    rw [if_neg hrange]
    cases body with
    | badJson => rfl
    | obj p => dsimp only; rw [hcb]
    | arr l => dsimp only; rw [hcb]
    | scalar => rfl

theorem workerRegionStep_noData (env : Env) (creds : Bool) (host : String)
    (port : Nat) (cv : Option String) (store : Store) (acc : WAcc)
    (region : String)
    (h : ∀ ck, NoDataFetch (env.fetch host port region ck)) :
    (workerRegionStep env creds host port cv store acc region).acc.total_sum =
      acc.total_sum ∧
    (workerRegionStep env creds host port cv store acc region).acc.agg_pcts =
      acc.agg_pcts ∧
    (workerRegionStep env creds host port cv store acc region).acc.agg_by_region =
      acc.agg_by_region ∧
    (workerRegionStep env creds host port cv store acc region).acc.agg_by_host =
      acc.agg_by_host := by
  unfold workerRegionStep
  cases hf : env.fetch host port region (effCookie cv) with
  | exn => exact ⟨rfl, rfl, rfl, rfl⟩
  | resp status body =>
    have hnd := h (effCookie cv)
    rw [hf] at hnd
    dsimp only
    split
    · split
      · split
        · cases hf2 : env.fetch host port region
              (getSessionCookieForHost env creds store host port).2.1 with
          | exn => exact ⟨rfl, rfl, rfl, rfl⟩
          | resp st2 b2 =>
            have hnd2 := h (getSessionCookieForHost env creds store host port).2.1
            rw [hf2] at hnd2
            dsimp only
            split
            · exact ⟨rfl, rfl, rfl, rfl⟩
            · rw [workerFinishResp_noData host region st2 b2 _ hnd2]
              exact ⟨rfl, rfl, rfl, rfl⟩
        · exact ⟨rfl, rfl, rfl, rfl⟩
      · exact ⟨rfl, rfl, rfl, rfl⟩
    · rw [workerFinishResp_noData host region status body _ hnd]
      exact ⟨rfl, rfl, rfl, rfl⟩

theorem workerRegionsLoop_noData (env : Env) (creds : Bool) (host : String)
    (port : Nat) (regions : List String)
    (H : ∀ h p r ck, NoDataFetch (env.fetch h p r ck)) :
    ∀ (cv : Option String) (store : Store) (acc : WAcc),
      (workerRegionsLoop env creds host port regions cv store acc).2.2.1.total_sum =
        acc.total_sum ∧
      (workerRegionsLoop env creds host port regions cv store acc).2.2.1.agg_pcts =
        acc.agg_pcts ∧
      (workerRegionsLoop env creds host port regions cv store
        acc).2.2.1.agg_by_region = acc.agg_by_region ∧
      (workerRegionsLoop env creds host port regions cv store
        acc).2.2.1.agg_by_host = acc.agg_by_host := by
  induction regions with
  | nil => intro cv store acc; exact ⟨rfl, rfl, rfl, rfl⟩
  | cons r rest ih =>
    intro cv store acc
    obtain ⟨s1, s2, s3, s4⟩ :=
      workerRegionStep_noData env creds host port cv store acc r
        (fun ck => H host port r ck)
    simp only [workerRegionsLoop]
    split
    · exact ⟨s1, s2, s3, s4⟩
    · obtain ⟨l1, l2, l3, l4⟩ := ih
        (workerRegionStep env creds host port cv store acc r).cookie
        (workerRegionStep env creds host port cv store acc r).store
        (workerRegionStep env creds host port cv store acc r).acc
      exact ⟨l1.trans s1, l2.trans s2, l3.trans s3, l4.trans s4⟩

theorem workerHostsLoop_noData (env : Env) (creds : Bool)
    (mapping : List (String × MapEntry))
    (H : ∀ h p r ck, NoDataFetch (env.fetch h p r ck)) :
    ∀ (store : Store) (acc : WAcc),
      (workerHostsLoop env creds mapping store acc).2.1.total_sum =
        acc.total_sum ∧
      (workerHostsLoop env creds mapping store acc).2.1.agg_pcts =
        acc.agg_pcts ∧
      (workerHostsLoop env creds mapping store acc).2.1.agg_by_region =
        acc.agg_by_region ∧
      (workerHostsLoop env creds mapping store acc).2.1.agg_by_host =
        acc.agg_by_host := by
  induction mapping with
  | nil => intro store acc; exact ⟨rfl, rfl, rfl, rfl⟩
  | cons e rest ih =>
    obtain ⟨hk, m⟩ := e
    intro store acc
    have hstep : (workerHostStep env creds store acc hk m).2.1.total_sum =
        acc.total_sum ∧
        (workerHostStep env creds store acc hk m).2.1.agg_pcts =
          acc.agg_pcts ∧
        (workerHostStep env creds store acc hk m).2.1.agg_by_region =
          acc.agg_by_region ∧
        (workerHostStep env creds store acc hk m).2.1.agg_by_host =
          acc.agg_by_host := by
      unfold workerHostStep
      dsimp only
      split
      · exact ⟨rfl, rfl, rfl, rfl⟩
      · exact workerRegionsLoop_noData env creds hk m.port (effRegions m) H _ _ acc
    obtain ⟨s1, s2, s3, s4⟩ := hstep
    simp only [workerHostsLoop]
    split
    · exact ⟨s1, s2, s3, s4⟩
    · obtain ⟨l1, l2, l3, l4⟩ := ih
        (workerHostStep env creds store acc hk m).1
        (workerHostStep env creds store acc hk m).2.1
      exact ⟨l1.trans s1, l2.trans s2, l3.trans s3, l4.trans s4⟩

/-! ## Claim C8: no-data runs are normal outcomes -/

/-- C8 counterexample: a run whose only fetch answers HTTP 500 ends
with `totalCalls == 1` (not 0) while the worker's result dict has no
failed-regions entry at all, so the claim's stated discriminators are
unavailable; the completion handler nevertheless reports "no data",
keyed solely on `totalSum == 0`. -/
theorem c8_counterexample :
    (consultarTodosWorker env500 true [("H", entryR)] []).2.1.total_calls = 1 ∧
    ¬ (consultarTodosWorker env500 true [("H", entryR)] []).2.1.total_calls = 0 ∧
    (consultarTodosWorker env500 true [("H", entryR)] []).2.1.total_sum = 0 ∧
    consultarTodosDone
      (some (.ok (consultarTodosWorker env500 true [("H", entryR)] []).2.1)) =
      .noData := by
  refine ⟨by decide, by decide, by decide, by decide⟩

/-- C8 (amended): a run in which no endpoint yields data returns a valid
all-zero result (zero sum, empty maps) and the completion handler
classifies it as "no data", not as an error; the discriminator actually
available to the caller is `totalSum == 0` — the worker's result
carries no failed-regions list and `totalCalls` may be nonzero. -/
theorem c8_amended (env : Env) (creds : Bool)
    (mapping : List (String × MapEntry)) (store : Store)
    (H : ∀ h p r ck, NoDataFetch (env.fetch h p r ck)) :
    (consultarTodosWorker env creds mapping store).2.1.total_sum = 0 ∧
    (consultarTodosWorker env creds mapping store).2.1.agg_pcts = [] ∧
    (consultarTodosWorker env creds mapping store).2.1.agg_by_region = [] ∧
    (consultarTodosWorker env creds mapping store).2.1.agg_by_host = [] ∧
    consultarTodosDone
      (some (.ok (consultarTodosWorker env creds mapping store).2.1)) =
      .noData := by
  obtain ⟨h1, h2, h3, h4⟩ :=
    workerHostsLoop_noData env creds mapping H store ⟨0, 0, [], [], []⟩
  have h1z : (consultarTodosWorker env creds mapping store).2.1.total_sum = 0 := h1
  refine ⟨h1z, h2, h3, h4, ?_⟩
  unfold consultarTodosDone
  dsimp only
  rw [if_pos h1z]

/-- Witness for C8: the hypothesis holds for the all-500 environment. -/
theorem c8_amended_witness :
    (∀ h p r ck, NoDataFetch (env500.fetch h p r ck)) ∧
    ((consultarTodosWorker env500 true [("H", entryR)] [("K", "c")]).2.1.total_sum = 0 ∧
     (consultarTodosWorker env500 true [("H", entryR)] [("K", "c")]).2.1.agg_pcts = [] ∧
     (consultarTodosWorker env500 true [("H", entryR)] [("K", "c")]).2.1.agg_by_region = [] ∧
     (consultarTodosWorker env500 true [("H", entryR)] [("K", "c")]).2.1.agg_by_host = [] ∧
     consultarTodosDone
       (some (.ok (consultarTodosWorker env500 true [("H", entryR)] [("K", "c")]).2.1)) =
       .noData) :=
  ⟨fun _ _ _ _ => Or.inr (Or.inr (Or.inl (by norm_num))),
   c8_amended env500 true [("H", entryR)] [("K", "c")]
     (fun _ _ _ _ => Or.inr (Or.inr (Or.inl (by norm_num))))⟩

/-! ## Session-store invariant lemmas -/

theorem storeInv_storePut : ∀ (store : Store) (hk c : String),
    storeInv store → c ≠ "" → storeInv (storePut store hk c)
  | [], hk, c, _, hc => by
    intro pr hpr
    rw [List.mem_singleton.mp hpr]
    exact hc
  | (k, v) :: rest, hk, c, h, hc => by
    intro pr hpr
    unfold storePut at hpr
    by_cases hkh : k = hk
    · rw [if_pos hkh] at hpr
      rcases List.mem_cons.mp hpr with he | ht
      · rw [he]; exact hc
      · exact h pr (List.mem_cons_of_mem _ ht)
    · rw [if_neg hkh] at hpr
      rcases List.mem_cons.mp hpr with he | ht
      · exact h pr (he ▸ List.mem_cons_self _ _)
      · exact storeInv_storePut rest hk c
          (fun q hq => h q (List.mem_cons_of_mem _ hq)) hc pr ht

theorem getSessionCookieForHost_inv (env : Env) (creds : Bool) (store : Store)
    (host : String) (port : Nat) (h : storeInv store) :
    storeInv (getSessionCookieForHost env creds store host port).1 := by
  unfold getSessionCookieForHost
  split
  · cases hauth : env.auth host port with
    | none => exact h
    | some cookie =>
      dsimp only
      split
      · exact storeInv_storePut store host cookie h ‹cookie ≠ ""›
      · exact h
  · exact h

theorem getSessionCookieForHost_noInsert (env : Env) (creds : Bool)
    (store : Store) (host : String) (port : Nat)
    (h : env.auth host port = none ∨ env.auth host port = some "") :
    (getSessionCookieForHost env creds store host port).1 = store := by
  unfold getSessionCookieForHost
  split
  · rcases h with h | h <;> rw [h]
    dsimp only
    rw [if_neg (by simp)]
  · rfl

theorem workerRegionStep_storeInv (env : Env) (creds : Bool) (host : String)
    (port : Nat) (cv : Option String) (store : Store) (acc : WAcc)
    (region : String) (h : storeInv store) :
    storeInv (workerRegionStep env creds host port cv store acc region).store := by
  unfold workerRegionStep
  cases env.fetch host port region (effCookie cv) with
  | exn => exact h
  | resp status body =>
    have hg := getSessionCookieForHost_inv env creds store host port h
    dsimp only
    split
    · split
      · split
        · cases env.fetch host port region
              (getSessionCookieForHost env creds store host port).2.1 with
          | exn => exact hg
          | resp st2 b2 =>
            dsimp only
            split
            · exact hg
            · exact hg
        · exact hg
      · exact h
    · exact h

theorem workerRegionsLoop_storeInv (env : Env) (creds : Bool) (host : String)
    (port : Nat) (regions : List String) :
    ∀ (cv : Option String) (store : Store) (acc : WAcc), storeInv store →
      storeInv (workerRegionsLoop env creds host port regions cv store
        acc).2.1 := by
  induction regions with
  | nil => intro cv store acc h; exact h
  | cons r rest ih =>
    intro cv store acc h
    have hs := workerRegionStep_storeInv env creds host port cv store acc r h
    simp only [workerRegionsLoop]
    split
    · exact hs
    · exact ih _ _ _ hs

theorem workerHostsLoop_storeInv (env : Env) (creds : Bool)
    (mapping : List (String × MapEntry)) :
    ∀ (store : Store) (acc : WAcc), storeInv store →
      storeInv (workerHostsLoop env creds mapping store acc).1 := by
  induction mapping with
  | nil => intro store acc h; exact h
  | cons e rest ih =>
    obtain ⟨hk, m⟩ := e
    intro store acc h
    have hstep : storeInv (workerHostStep env creds store acc hk m).1 := by
      unfold workerHostStep
      dsimp only
      split
      · exact h
      · apply workerRegionsLoop_storeInv
        split
        · exact h
        · split
          · exact getSessionCookieForHost_inv env creds store hk m.port h
          · exact h
    simp only [workerHostsLoop]
    split
    · exact hstep
    · exact ih _ _ hstep

theorem refreshAfter401_storeInv (env : Env) (c : Creds) (host : String)
    (port : Nat) (retry : Bool) (cv : Option String) (store : Store)
    (acc : RAcc) (r : String) (st : Nat) (body : RespBody)
    (auths fetches : Nat) (h : storeInv store) :
    storeInv (refreshAfter401 env c host port retry cv store acc r st body
      auths fetches).store := by
  unfold refreshAfter401
  split
  · split
    · have hg := getSessionCookieForHost_inv env c.both store host port h
      dsimp only
      split
      · cases env.fetch host port r
            (storeGet (getSessionCookieForHost env c.both store host port).1
              host) with
        | exn => exact hg
        | resp st3 b3 => exact hg
      · exact hg
    · exact h
  · exact h

theorem refreshRegionStep_storeInv (env : Env) (c : Creds) (host : String)
    (port : Nat) (retry : Bool) (cv : Option String) (store : Store)
    (acc : RAcc) (r : String) (h : storeInv store) :
    storeInv (refreshRegionStep env c host port retry cv store acc r).store := by
  unfold refreshRegionStep
  dsimp only
  cases env.fetch host port r
      (effCookie (if truthy cv = true then cv else storeGet store host)) with
  | exn => exact h
  | resp st body =>
    have hg := getSessionCookieForHost_inv env c.both store host port h
    dsimp only
    split
    · split
      · cases env.fetch host port r
            (getSessionCookieForHost env c.both store host port).2.1 with
        | exn => exact hg
        | resp st2 b2 =>
          exact refreshAfter401_storeInv env c host port retry cv _ _ r st2 b2 _ _ hg
      · exact refreshAfter401_storeInv env c host port retry cv _ _ r st body _ _ hg
    · exact h

theorem refreshRegionsLoop_storeInv (env : Env) (c : Creds) (host : String)
    (port : Nat) (retry : Bool) (regions : List String) :
    ∀ (cv : Option String) (store : Store) (acc : RAcc), storeInv store →
      storeInv (refreshRegionsLoop env c host port retry regions cv store
        acc).2.1 := by
  induction regions with
  | nil => intro cv store acc h; exact h
  | cons r rest ih =>
    intro cv store acc h
    have hs := refreshRegionStep_storeInv env c host port retry cv store acc r h
    simp only [refreshRegionsLoop]
    split
    · exact hs
    · exact ih _ _ _ hs

theorem refreshAllPrep1_storeInv (env : Env) (c : Creds) (host : String)
    (port : Nat) (store : Store) (h : storeInv store) :
    storeInv (refreshAllPrep1 env c host port store).1 := by
  unfold refreshAllPrep1
  dsimp only
  split
  · exact h
  · split
    · exact getSessionCookieForHost_inv env c.both store host port h
    · exact h

theorem refreshAllPrep_storeInv (env : Env) (c : Creds) (host : String)
    (port : Nat) (store : Store) (h : storeInv store) :
    storeInv (refreshAllPrep env c host port store).1 := by
  have h1 := refreshAllPrep1_storeInv env c host port store h
  unfold refreshAllPrep
  dsimp only
  split
  · exact h1
  · split
    · exact getSessionCookieForHost_inv env c.both _ host port h1
    · exact h1

theorem refreshAllRun_storeInv (env : Env) (c : Creds) (host : String)
    (port : Nat) (regions : List String) (store : Store) (retry : Bool)
    (h : storeInv store) :
    storeInv (refreshAllRun env c host port regions store retry).2.1 := by
  unfold refreshAllRun
  exact refreshRegionsLoop_storeInv env c host port retry regions _ _ _
    (refreshAllPrep_storeInv env c host port store h)

/-! ## Claim C10: the session-cookie store invariant -/

/-- C10: every operation on the per-host cookie store — the interactive
or non-interactive `_get_session_cookie_for_host`, a whole worker
sweep, a whole All-regions refresh pass, and `logoff` (which does not
touch the store) — preserves "every stored cookie is non-empty", and a
failed or empty authentication leaves the store unchanged. -/
theorem c10_store_invariant :
    (∀ (env : Env) (creds : Bool) (store : Store) (host : String) (port : Nat),
      storeInv store →
      storeInv (getSessionCookieForHost env creds store host port).1) ∧
    (∀ (env : Env) (creds : Bool) (store : Store) (host : String) (port : Nat),
      env.auth host port = none ∨ env.auth host port = some "" →
      (getSessionCookieForHost env creds store host port).1 = store) ∧
    (∀ store : Store, storeInv store → storeInv (logoffSessionCookies store)) ∧
    (∀ (env : Env) (creds : Bool) (mapping : List (String × MapEntry))
       (store : Store), storeInv store →
      storeInv (consultarTodosWorker env creds mapping store).1) ∧
    (∀ (env : Env) (c : Creds) (host : String) (port : Nat)
       (regions : List String) (store : Store) (retry : Bool),
      storeInv store →
      storeInv (refreshAllRun env c host port regions store retry).2.1) := by
  refine ⟨getSessionCookieForHost_inv, getSessionCookieForHost_noInsert, ?_, ?_, refreshAllRun_storeInv⟩
  · intro store h
    exact h
  · intro env creds mapping store h
    exact workerHostsLoop_storeInv env creds mapping store _ h

/-- Witness for C10 at a concrete store and environment. -/
theorem c10_store_invariant_witness :
    storeInv [("H", "C")] ∧
    storeInv (getSessionCookieForHost env401 true [("H", "C")] "G" 10086).1 := by
  have hinv : storeInv [("H", "C")] := by
    intro pr hpr
    rw [List.mem_singleton.mp hpr]
    decide
  exact ⟨hinv, c10_store_invariant.1 env401 true [("H", "C")] "G" 10086 hinv⟩

/-! ## Failed-region bookkeeping of the refresh All path -/

theorem refreshFinishResp_failed (r : String) (status : Nat) (body : RespBody)
    (acc : RAcc) :
    (refreshFinishResp r status body acc).1.failed =
      acc.failed ++
        (if recordsFailed (refreshFinishResp r status body acc).2 then [r]
         else []) := by
  unfold refreshFinishResp
  split
  · simp [recordsFailed]
  · cases body with
    | badJson => simp [recordsFailed]
    | obj p =>
      dsimp only
      cases classifyBody (.obj p) with
      | noPcts => simp [recordsFailed]
      | crash => simp [recordsFailed]
      | records pcts => simp [recordsFailed]
    | arr l =>
      dsimp only
      cases classifyBody (.arr l) with
      | noPcts => simp [recordsFailed]
      | crash => simp [recordsFailed]
      | records pcts => simp [recordsFailed]
    | scalar => simp [classifyBody, recordsFailed]

theorem refreshAfter401_failed (env : Env) (c : Creds) (host : String)
    (port : Nat) (retry : Bool) (cv : Option String) (store : Store)
    (acc : RAcc) (r : String) (st : Nat) (body : RespBody)
    (auths fetches : Nat) :
    (refreshAfter401 env c host port retry cv store acc r st body auths
        fetches).acc.failed =
      acc.failed ++
        (if recordsFailed (refreshAfter401 env c host port retry cv store acc
            r st body auths fetches).tag then [r]
         else []) := by
  unfold refreshAfter401
  split
  · split
    · dsimp only
      split
      · cases env.fetch host port r
            (storeGet (getSessionCookieForHost env c.both store host port).1
              host) with
        | exn => simp [recordsFailed]
        | resp st3 b3 =>
          dsimp only
          exact refreshFinishResp_failed r st3 b3 acc
      · simp [recordsFailed]
    · simp [recordsFailed]
  · dsimp only
    exact refreshFinishResp_failed r st body acc

theorem refreshRegionStep_failed (env : Env) (c : Creds) (host : String)
    (port : Nat) (retry : Bool) (cv : Option String) (store : Store)
    (acc : RAcc) (r : String) :
    (refreshRegionStep env c host port retry cv store acc r).acc.failed =
      acc.failed ++
        (if recordsFailed (refreshRegionStep env c host port retry cv store acc
            r).tag then [r]
         else []) := by
  unfold refreshRegionStep
  dsimp only
  cases env.fetch host port r
      (effCookie (if truthy cv = true then cv else storeGet store host)) with
  | exn => simp [recordsFailed]
  | resp st body =>
    dsimp only
    split
    · split
      · cases env.fetch host port r
            (getSessionCookieForHost env c.both store host port).2.1 with
        | exn => simp [recordsFailed]
        | resp st2 b2 => exact refreshAfter401_failed env c host port retry cv _ _ r st2 b2 _ _
      · exact refreshAfter401_failed env c host port retry cv _ _ r st body _ _
    · dsimp only
      exact refreshFinishResp_failed r st body _

theorem refreshFinishResp_tag (r : String) (status : Nat) (body : RespBody)
    (acc : RAcc)
    (h : status < 200 ∨ 300 ≤ status ∨ classifyBody body ≠ .crash) :
    (refreshFinishResp r status body acc).2 ≠ .crash := by
  by_cases hrange : (decide (status < 200) || decide (300 ≤ status)) = true
  · unfold refreshFinishResp
    rw [if_pos hrange]
    simp
  · have hcb : classifyBody body ≠ .crash := by
      rcases h with h | h | h
      · exfalso; simp only [Bool.or_eq_true, decide_eq_true_eq] at hrange
        exact hrange (Or.inl h)
      · exfalso; simp only [Bool.or_eq_true, decide_eq_true_eq] at hrange
        exact hrange (Or.inr h)
      · exact h
    unfold refreshFinishResp
    rw [if_neg hrange]
    cases body with
    | badJson => simp
    | obj p =>
      dsimp only
      cases hc : classifyBody (.obj p) with
      | noPcts => simp
      | crash => exact absurd hc hcb
      | records pcts => simp
    | arr l =>
      dsimp only
      cases hc : classifyBody (.arr l) with
      | noPcts => simp
      | crash => exact absurd hc hcb
      | records pcts => simp
    | scalar => simp [classifyBody]

theorem refreshAfter401_tag (env : Env) (c : Creds) (host : String)
    (port : Nat) (retry : Bool) (cv : Option String) (store : Store)
    (acc : RAcc) (r : String) (st : Nat) (body : RespBody)
    (auths fetches : Nat)
    (hb : st < 200 ∨ 300 ≤ st ∨ classifyBody body ≠ .crash)
    (hnc : ∀ ck, NoCrashFetch (env.fetch host port r ck)) :
    (refreshAfter401 env c host port retry cv store acc r st body auths
      fetches).tag ≠ .crash := by
  unfold refreshAfter401
  split
  · split
    · dsimp only
      split
      · cases hf : env.fetch host port r
            (storeGet (getSessionCookieForHost env c.both store host port).1
              host) with
        | exn => simp
        | resp st3 b3 =>
          have h3 := hnc (storeGet
            (getSessionCookieForHost env c.both store host port).1 host)
          rw [hf] at h3
          dsimp only
          exact refreshFinishResp_tag r st3 b3 acc h3
      · simp
    · simp
  · dsimp only
    exact refreshFinishResp_tag r st body acc hb

theorem refreshRegionStep_tag (env : Env) (c : Creds) (host : String)
    (port : Nat) (retry : Bool) (cv : Option String) (store : Store)
    (acc : RAcc) (r : String)
    (hnc : ∀ ck, NoCrashFetch (env.fetch host port r ck)) :
    (refreshRegionStep env c host port retry cv store acc r).tag ≠ .crash := by
  unfold refreshRegionStep
  dsimp only
  cases hf : env.fetch host port r
      (effCookie (if truthy cv = true then cv else storeGet store host)) with
  | exn => simp
  | resp st body =>
    have h0 := hnc (effCookie (if truthy cv = true then cv
      else storeGet store host))
    rw [hf] at h0
    dsimp only
    split
    · split
      · cases hf2 : env.fetch host port r
            (getSessionCookieForHost env c.both store host port).2.1 with
        | exn => simp
        | resp st2 b2 =>
          have h2 := hnc (getSessionCookieForHost env c.both store host
            port).2.1
          rw [hf2] at h2
          exact refreshAfter401_tag env c host port retry cv _ _ r st2 b2 _ _
            h2 hnc
      · exact refreshAfter401_tag env c host port retry cv _ _ r st body _ _
          h0 hnc
    · dsimp only
      exact refreshFinishResp_tag r st body _ h0

theorem refreshRegionsLoop_trace (env : Env) (c : Creds) (host : String)
    (port : Nat) (retry : Bool) (regions : List String)
    (hnc : ∀ r ck, NoCrashFetch (env.fetch host port r ck)) :
    ∀ (cv : Option String) (store : Store) (acc : RAcc),
      ((refreshRegionsLoop env c host port retry regions cv store
          acc).2.2.2.1.map RegionLog.region = regions) ∧
      ((refreshRegionsLoop env c host port retry regions cv store
          acc).2.2.2.2 = false) ∧
      ((refreshRegionsLoop env c host port retry regions cv store
          acc).2.2.1.failed =
        acc.failed ++
          ((refreshRegionsLoop env c host port retry regions cv store
              acc).2.2.2.1.filter (fun l => recordsFailed l.tag)).map
            RegionLog.region) := by
  induction regions with
  | nil =>
    intro cv store acc
    exact ⟨rfl, rfl, by simp [refreshRegionsLoop]⟩
  | cons r rest ih =>
    intro cv store acc
    have htag := refreshRegionStep_tag env c host port retry cv store acc r
      (fun ck => hnc r ck)
    obtain ⟨ihm, ihc, ihf⟩ := ih
      (refreshRegionStep env c host port retry cv store acc r).cookie
      (refreshRegionStep env c host port retry cv store acc r).store
      (refreshRegionStep env c host port retry cv store acc r).acc
    have hstep := refreshRegionStep_failed env c host port retry cv store acc r
    simp only [refreshRegionsLoop]
    rw [if_neg htag]
    dsimp only
    refine ⟨?_, ihc, ?_⟩
    · simp only [List.map_cons]
      rw [ihm]
    · simp only [List.filter_cons]
      rw [ihf, hstep]
      by_cases hrf : recordsFailed (refreshRegionStep env c host port retry cv
          store acc r).tag
      · simp [hrf, List.append_assoc]
      · simp [hrf]

theorem workerFinishResp_tag (host region : String) (status : Nat)
    (body : RespBody) (acc : WAcc)
    (h : status < 200 ∨ 300 ≤ status ∨ classifyBody body ≠ .crash) :
    (workerFinishResp host region status body acc).2 ≠ .crash := by
  by_cases hrange : (decide (status < 200) || decide (300 ≤ status)) = true
  · unfold workerFinishResp
    rw [if_pos hrange]
    simp
  · have hcb : classifyBody body ≠ .crash := by
      rcases h with h | h | h
      · exfalso; simp only [Bool.or_eq_true, decide_eq_true_eq] at hrange
        exact hrange (Or.inl h)
      · exfalso; simp only [Bool.or_eq_true, decide_eq_true_eq] at hrange
        exact hrange (Or.inr h)
      · exact h
    unfold workerFinishResp
    rw [if_neg hrange]
    cases body with
    | badJson => simp
    | obj p =>
      dsimp only
      cases hc : classifyBody (.obj p) with
      | noPcts => simp
      | crash => exact absurd hc hcb
      | records pcts => simp
    | arr l =>
      dsimp only
      cases hc : classifyBody (.arr l) with
      | noPcts => simp
      | crash => exact absurd hc hcb
      | records pcts => simp
    | scalar => simp [classifyBody]

theorem workerRegionStep_tag (env : Env) (creds : Bool) (host : String)
    (port : Nat) (cv : Option String) (store : Store) (acc : WAcc)
    (region : String)
    (hnc : ∀ ck, NoCrashFetch (env.fetch host port region ck)) :
    (workerRegionStep env creds host port cv store acc region).tag ≠
      .crash := by
  unfold workerRegionStep
  cases hf : env.fetch host port region (effCookie cv) with
  | exn => simp
  | resp status body =>
    have h0 := hnc (effCookie cv)
    rw [hf] at h0
    dsimp only
    split
    · split
      · split
        · cases hf2 : env.fetch host port region
              (getSessionCookieForHost env creds store host port).2.1 with
          | exn => simp
          | resp st2 b2 =>
            have h2 := hnc (getSessionCookieForHost env creds store host
              port).2.1
            rw [hf2] at h2
            dsimp only
            split
            · simp
            · exact workerFinishResp_tag host region st2 b2 _ h2
        · simp
      · simp
    · exact workerFinishResp_tag host region status body _ h0

theorem workerRegionsLoop_regions (env : Env) (creds : Bool) (host : String)
    (port : Nat) (regions : List String)
    (hnc : ∀ r ck, NoCrashFetch (env.fetch host port r ck)) :
    ∀ (cv : Option String) (store : Store) (acc : WAcc),
      ((workerRegionsLoop env creds host port regions cv store
          acc).2.2.2.1.map RegionLog.region = regions) ∧
      (workerRegionsLoop env creds host port regions cv store
        acc).2.2.2.2 = false := by
  induction regions with
  | nil => intro cv store acc; exact ⟨rfl, rfl⟩
  | cons r rest ih =>
    intro cv store acc
    have htag := workerRegionStep_tag env creds host port cv store acc r
      (fun ck => hnc r ck)
    obtain ⟨ihm, ihc⟩ := ih
      (workerRegionStep env creds host port cv store acc r).cookie
      (workerRegionStep env creds host port cv store acc r).store
      (workerRegionStep env creds host port cv store acc r).acc
    simp only [workerRegionsLoop]
    rw [if_neg htag]
    dsimp only
    refine ⟨?_, ihc⟩
    simp only [List.map_cons]
    rw [ihm]

/-! ## Claim C1: failure recording and isolation -/

/-- C1 counterexample: a 2xx response whose body is undecodable JSON
(`Malformed`) leaves `failed_regions` empty in refresh's All path —
the failing (host, region) pair is not recorded, so `failedRegions`
does not contain exactly the pairs whose fetches failed.  (The
cross-host worker records no failed regions at all: its result dict
`WAcc` has no such field.) -/
theorem c1_counterexample :
    (refreshAllRun envBadJson ⟨true, true⟩ "H" 10086 ["R"] [("H", "C")]
        false).2.2.1.failed = [] ∧
    (refreshAllRun envBadJson ⟨true, true⟩ "H" 10086 ["R"] [("H", "C")]
        false).2.2.2.1 = [⟨"H", "R", .badJson, 0, 1⟩] ∧
    (refreshAllRun envBadJson ⟨true, true⟩ "H" 10086 ["R"] [("H", "C")]
        false).2.2.1.total_sum = 0 := by
  refine ⟨by decide, by decide, by decide⟩

/-- C1 (amended): whenever no fetched body carries a truthy
non-iterable `PCTs` value, no endpoint failure aborts the run — the
All-path region loop processes every configured region without
crashing, and `failed_regions` records exactly the regions whose step
ended in an initial-request transport failure or a final non-2xx
status (`recordsFailed`); malformed 2xx bodies, missing counter lists
and retry-transport failures are skipped without being recorded, and
the cross-host worker records no failed regions.  However, a 2xx body
whose `PCTs` is a truthy non-list raises `TypeError` at the record
loop and aborts the whole sweep: refresh abandons its remaining
regions, and the worker abandons its remaining hosts and regions and
is delivered as an error result. -/
theorem c1_amended :
    (∀ (env : Env) (c : Creds) (host : String) (port : Nat) (retry : Bool)
       (regions : List String) (cv : Option String) (store : Store)
       (acc : RAcc),
       (∀ r ck, NoCrashFetch (env.fetch host port r ck)) →
       ((refreshRegionsLoop env c host port retry regions cv store
           acc).2.2.2.1.map RegionLog.region = regions) ∧
       ((refreshRegionsLoop env c host port retry regions cv store
           acc).2.2.2.2 = false) ∧
       ((refreshRegionsLoop env c host port retry regions cv store
           acc).2.2.1.failed =
         acc.failed ++
           ((refreshRegionsLoop env c host port retry regions cv store
               acc).2.2.2.1.filter (fun l => recordsFailed l.tag)).map
             RegionLog.region)) ∧
    ((refreshAllRun envCrash ⟨true, true⟩ "H" 10086 ["R1", "R2"] [("H", "C")]
        false).2.2.2.2 = true ∧
     (refreshAllRun envCrash ⟨true, true⟩ "H" 10086 ["R1", "R2"] [("H", "C")]
        false).2.2.2.1.map RegionLog.region = ["R1"] ∧
     (consultarTodosWorker envCrash true [("H", entryR2)]
        [("H", "C")]).2.2.1.map RegionLog.region = ["R1"] ∧
     consultarTodosOutcome envCrash true [("H", entryR2)] [("H", "C")] =
       .error "TypeError") :=
  ⟨fun env c host port retry regions cv store acc hnc =>
     refreshRegionsLoop_trace env c host port retry regions hnc cv store acc,
   by refine ⟨by decide, by decide, by decide, rfl⟩⟩

/-- Witness for C1 at the all-badJson environment with one region. -/
theorem c1_amended_witness :
    (∀ r ck, NoCrashFetch (envBadJson.fetch "H" 10086 r ck)) ∧
    (((refreshRegionsLoop envBadJson ⟨true, true⟩ "H" 10086 false ["R"] none
        [("H", "C")] ⟨[], 0, 0, [], []⟩).2.2.2.1.map RegionLog.region =
      ["R"]) ∧
     ((refreshRegionsLoop envBadJson ⟨true, true⟩ "H" 10086 false ["R"] none
        [("H", "C")] ⟨[], 0, 0, [], []⟩).2.2.2.2 = false) ∧
     ((refreshRegionsLoop envBadJson ⟨true, true⟩ "H" 10086 false ["R"] none
        [("H", "C")] ⟨[], 0, 0, [], []⟩).2.2.1.failed =
       (⟨[], 0, 0, [], []⟩ : RAcc).failed ++
         ((refreshRegionsLoop envBadJson ⟨true, true⟩ "H" 10086 false ["R"]
             none [("H", "C")] ⟨[], 0, 0, [], []⟩).2.2.2.1.filter
           (fun l => recordsFailed l.tag)).map RegionLog.region)) :=
  ⟨fun r ck => Or.inr (Or.inr (by decide)),
   c1_amended.1 envBadJson ⟨true, true⟩ "H" 10086 false ["R"] none
     [("H", "C")] ⟨[], 0, 0, [], []⟩
     (fun r ck => Or.inr (Or.inr (by decide)))⟩

/-! ## Claim C2: bounded re-authentication -/

theorem storeGet_storePut (s : Store) (h c : String) :
    storeGet (storePut s h c) h = some c := by
  induction s with
  | nil => simp [storePut, storeGet]
  | cons p rest ih =>
    obtain ⟨k, v⟩ := p
    by_cases hk : k = h
    · simp [storePut, hk, storeGet]
    · simp [storePut, storeGet, hk, ih]

/-- C2 counterexample: in refresh's All path, a pair answering 401 on
every attempt with valid credentials triggers TWO authentication calls
(the non-interactive retry, then a full interactive login) and TWO
retried fetches (three fetches in all) before the region is recorded as
failed — not "exactly one authentication and one retried fetch". -/
theorem c2_counterexample :
    (refreshRegionStep env401 ⟨true, true⟩ "H" 10086 false (some "C")
        [("H", "C")] ⟨[], 0, 0, [], []⟩ "R").auths = 2 ∧
    (refreshRegionStep env401 ⟨true, true⟩ "H" 10086 false (some "C")
        [("H", "C")] ⟨[], 0, 0, [], []⟩ "R").fetches = 3 ∧
    (refreshRegionStep env401 ⟨true, true⟩ "H" 10086 false (some "C")
        [("H", "C")] ⟨[], 0, 0, [], []⟩ "R").tag = .httpError := by
  refine ⟨by decide, by decide, by decide⟩

/-- C2 (amended): on an always-401 endpoint with valid credentials the
cross-host worker performs exactly one authentication call and exactly
one retried fetch, then skips the pair (without recording it); since
no fetched body carries a truthy non-iterable `PCTs` value, the region
loop processes every region without crashing — never a loop, never an
abort; refresh's single-host All path instead performs two
authentication calls (non-interactive, then interactive login) and two
retried fetches before appending the region to `failed_regions`. -/
theorem c2_bounded_reauth :
    (∀ (env : Env) (host : String) (port : Nat) (cv : Option String)
       (store : Store) (acc : WAcc) (r : String) (ck0 : String)
       (bf : Option String → RespBody),
       (∀ ck, env.fetch host port r ck = .resp 401 (bf ck)) →
       env.auth host port = some ck0 → ck0 ≠ "" →
       workerRegionStep env true host port cv store acc r =
         ⟨some ck0, storePut store host ck0,
          ⟨acc.total_sum, acc.total_calls + 1, acc.agg_pcts, acc.agg_by_region,
           acc.agg_by_host⟩, 1, 2, .unauthorizedSkip⟩) ∧
    (∀ (env : Env) (creds : Bool) (host : String) (port : Nat)
       (regions : List String) (cv : Option String) (store : Store)
       (acc : WAcc),
       (∀ r ck, NoCrashFetch (env.fetch host port r ck)) →
       ((workerRegionsLoop env creds host port regions cv store
           acc).2.2.2.1.map RegionLog.region = regions) ∧
       (workerRegionsLoop env creds host port regions cv store
         acc).2.2.2.2 = false) ∧
    (∀ (env : Env) (c : Creds) (host : String) (port : Nat)
       (cv : Option String) (store : Store) (acc : RAcc) (r : String)
       (ck0 : String) (bf : Option String → RespBody),
       c.both = true →
       (∀ ck, env.fetch host port r ck = .resp 401 (bf ck)) →
       env.auth host port = some ck0 → ck0 ≠ "" →
       (refreshRegionStep env c host port false cv store acc r).auths = 2 ∧
       (refreshRegionStep env c host port false cv store acc r).fetches = 3 ∧
       (refreshRegionStep env c host port false cv store acc r).tag =
         .httpError ∧
       (refreshRegionStep env c host port false cv store acc r).acc.failed =
         acc.failed ++ [r]) := by
  refine ⟨?_, ?_, ?_⟩
  · intro env host port cv store acc r ck0 bf h401 hauth hne
    simp [workerRegionStep, h401, getSessionCookieForHost, hauth, hne, truthy]
  · intro env creds host port regions cv store acc hnc
    exact workerRegionsLoop_regions env creds host port regions hnc cv store acc
  · intro env c host port cv store acc r ck0 bf hb h401 hauth hne
    simp [refreshRegionStep, refreshAfter401, refreshFinishResp, h401, hb,
      getSessionCookieForHost, hauth, hne, truthy, storeGet_storePut]

/-- Witness for C2: the worker's bounded-retry shape at the always-401
environment. -/
theorem c2_bounded_reauth_witness :
    (∀ ck, env401.fetch "H" 10086 "R" ck = .resp 401 .scalar) ∧
    workerRegionStep env401 true "H" 10086 (some "C") [] ⟨0, 0, [], [], []⟩
      "R" =
      ⟨some "C", storePut [] "H" "C", ⟨0, 0 + 1, [], [], []⟩, 1, 2,
       .unauthorizedSkip⟩ :=
  ⟨fun _ => rfl,
   c2_bounded_reauth.1 env401 "H" 10086 (some "C") [] ⟨0, 0, [], [], []⟩ "R"
     "C" (fun _ => .scalar) (fun _ => rfl) rfl (by decide)⟩

/-! ## Claim C7: empty-name records -/

theorem workerPctLoop_filter (pcts : List PctItem) :
    ∀ (agg : List (String × Int)) (tsum rsum : Int),
      workerPctLoop pcts agg tsum rsum =
        workerPctLoop (pcts.filter keepPct) agg tsum rsum := by
  induction pcts with
  | nil => intro agg tsum rsum; rfl
  | cons p rest ih =>
    intro agg tsum rsum
    cases p with
    | notDict =>
      rw [List.filter_cons_of_neg (by simp [keepPct])]
      simpa only [workerPctLoop] using ih agg tsum rsum
    | dict n c =>
      by_cases hn : n.getD "" = ""
      · rw [List.filter_cons_of_neg (by simp [keepPct, hn])]
        simp only [workerPctLoop]
        rw [if_pos hn]
        exact ih agg tsum rsum
      · rw [List.filter_cons_of_pos (by simp [keepPct, hn])]
        simp only [workerPctLoop]
        rw [if_neg hn, if_neg hn]
        exact ih (bump agg (n.getD "") (cntOf c)) (tsum + cntOf c)
          (rsum + cntOf c)

/-- C7 counterexample: in refresh's All path a 2xx record with an
absent name is NOT dropped — it is aggregated under the empty-string
key and contributes its count to `totalSum`. -/
theorem c7_counterexample :
    (refreshAllRun envAnon ⟨true, true⟩ "H" 10086 ["R"] [("H", "C")]
        false).2.2.1.total_sum = 5 ∧
    (refreshAllRun envAnon ⟨true, true⟩ "H" 10086 ["R"] [("H", "C")]
        false).2.2.1.agg_pcts = [("", 5)] := by
  refine ⟨by decide, by decide⟩

/-- C7 (amended): the cross-host worker drops every element whose
`PCTName or ''` is empty (and every non-object element) — its record
fold equals the fold of the filtered batch, so such elements contribute
nothing while the rest of the batch is still processed; refresh's
single-host All path does not drop them: an absent-name element is
aggregated under the empty-string name. -/
theorem c7_empty_names :
    (∀ (pcts : List PctItem) (agg : List (String × Int)) (tsum rsum : Int),
      workerPctLoop pcts agg tsum rsum =
        workerPctLoop (pcts.filter keepPct) agg tsum rsum) ∧
    (∀ (c : Option CntVal) (rest : List PctItem) (agg : List (String × Int))
       (tsum rsum : Int),
      refreshPctLoop (.dict none c :: rest) agg tsum rsum =
        refreshPctLoop rest (bump agg "" (cntOf c)) (tsum + cntOf c)
          (rsum + cntOf c)) :=
  ⟨fun pcts agg tsum rsum => workerPctLoop_filter pcts agg tsum rsum,
   fun _ _ _ _ _ => rfl⟩

end Monitor
